import Mathlib

/-!
Verification of the image-process repository's core logic.

The development shallowly embeds:
* the background-removal batch queue of `src/unnamed/part_003`
  (`createQueueItem`, `updateQueueItem`, `handleRemoveItem`,
  `handleProcessQueue`),
* the canvas compression pipeline of `src/app/compress/page.tsx`
  (`compressImage`),
* the image-generation proxy of `src/unnamed/part_001`
  (`buildImageUrl`, `normalizeImages`, `shouldRetryWithBase64`, `POST`),
* the recognition-content extraction of `src/app/identify/page.tsx`
  (`extractMessageContent`).
-/

namespace ImageProcess

/-! ## String helpers

Computable models of the JavaScript string operations used by the sources
(`trim`, `endsWith`, `toLowerCase`, substring containment), written over the
character list so that they reduce during kernel evaluation. -/

/-- JavaScript `String.prototype.trim`: strip leading and trailing
whitespace. -/
def trimWs (s : String) : String :=
  ⟨((s.data.dropWhile Char.isWhitespace).reverse.dropWhile
      Char.isWhitespace).reverse⟩

/-- JavaScript `String.prototype.endsWith`. -/
def endsWithStr (s suffix : String) : Bool :=
  List.isSuffixOf suffix.data s.data

/-- JavaScript `String.prototype.toLowerCase` (ASCII letters). -/
def toLowerStr (s : String) : String :=
  ⟨s.data.map Char.toLower⟩

/-- Substring containment test used to model the literal regular-expression
match in part_001. -/
def containsStr (s pat : String) : Bool :=
  s.data.tails.any fun t => List.isPrefixOf pat.data t

/-! ## Batch queue data model (src/unnamed/part_003) -/

/-- Model of `QueueStatus` from part_003: "pending" | "processing" | "success" | "error". -/
inductive QueueStatus where
  | pending
  | processing
  | success
  | error
deriving DecidableEq, Repr

/-- Model of `QueueItem` from part_003.  `file` stands for the opaque `File` object and
`resultBlob` for the opaque `Blob`; `previewUrl`/`resultUrl` are the object
URLs.  The optional credit fields conflate `undefined` and `null` into
`none`. -/
structure QueueItem where
  id : String
  file : Nat
  previewUrl : String
  resultUrl : Option String
  resultBlob : Option Nat
  status : QueueStatus
  error : Option String
  creditsRemaining : Option String
  creditsCharged : Option String
  creditType : Option String
deriving DecidableEq, Repr

/-- Model of `createQueueItem` from part_003: a fresh item is `pending` with no result,
no error and no credit info.  The generated id and object URL are taken as
parameters. -/
def createQueueItem (id previewUrl : String) (file : Nat) : QueueItem :=
  ⟨id, file, previewUrl, none, none, QueueStatus.pending, none, none, none, none⟩

/-- The `Partial<QueueItem>` updater objects passed to `updateQueueItem`.
A `none` field means the key is absent from the updater; for `error` and the
credit fields `some none` means the key is present with value
`undefined`/`null`. -/
structure ItemUpdate where
  status : Option QueueStatus
  error : Option (Option String)
  resultUrl : Option String
  resultBlob : Option Nat
  creditsRemaining : Option (Option String)
  creditsCharged : Option (Option String)
  creditType : Option (Option String)
deriving DecidableEq, Repr

/-- Spread semantics `{ ...item, ...updater }` for the updater shapes used in
part_003: a present key overwrites the field, an absent key keeps it. -/
def applyUpdate (it : QueueItem) (u : ItemUpdate) : QueueItem :=
  ⟨it.id, it.file, it.previewUrl,
   (match u.resultUrl with | some v => some v | none => it.resultUrl),
   (match u.resultBlob with | some v => some v | none => it.resultBlob),
   (match u.status with | some v => v | none => it.status),
   (match u.error with | some v => v | none => it.error),
   (match u.creditsRemaining with | some v => v | none => it.creditsRemaining),
   (match u.creditsCharged with | some v => v | none => it.creditsCharged),
   (match u.creditType with | some v => v | none => it.creditType)⟩

/-- Model of `updateQueueItem` from part_003: map over the queue, merging the updater
into every item whose id matches (the revoke of a replaced object URL is a
resource effect and has no bearing on the returned state). -/
def updateQueueItem (q : List QueueItem) (id : String) (u : ItemUpdate) :
    List QueueItem :=
  q.map fun it => if it.id = id then applyUpdate it u else it

/-- Outcome of the single `fetch("/api/remove-background", ...)` performed for
one queue item: a 2xx response with a result blob, a non-2xx response (JSON or
plain-text body, with optional error/code fields and credit headers), or a
thrown exception (`some m` when it is an `Error` carrying message `m`). -/
inductive CallOutcome where
  | ok (blob : Nat) (url : String)
      (creditsRemaining creditsCharged creditType : Option String)
  | httpErr (isJson : Bool) (bodyError : Option String) (bodyCode : Option String)
      (text : String)
      (creditsRemaining creditsCharged creditType : Option String)
  | thrown (message : Option String)
deriving DecidableEq, Repr

/-- Default failure message of the non-2xx branch in part_003. -/
def defaultRemoveErrorMessage : String := "去除背景失败，请稍后再试。"

/-- Message used when the catch branch receives a non-`Error` value. -/
def unknownRemoveErrorMessage : String := "去除背景时出现未知错误，请重试。"

/-- The `message` computation of the non-2xx branch: `body?.error || message` for a
JSON body, `text || message` otherwise (`""` is falsy). -/
def httpErrorMessage (isJson : Bool) (bodyError : Option String) (text : String) :
    String :=
  if isJson then
    match bodyError with
    | some s => if s = "" then defaultRemoveErrorMessage else s
    | none => defaultRemoveErrorMessage
  else
    if text = "" then defaultRemoveErrorMessage else text

/-- The `combinedMessage` of part_003: append `错误码：<code>` when a non-empty
error code is present, inserting a `。` unless the message already ends in
one. -/
def combinedErrorMessage (message : String) (code : Option String) : String :=
  match code with
  | some c =>
      if c = "" then message
      else message ++ (if endsWithStr message "。" then "" else "。") ++ "错误码：" ++ c
  | none => message

/-- The updater `{ status: "processing", error: undefined }` applied before the
external call. -/
def processingUpdate : ItemUpdate :=
  ⟨some QueueStatus.processing, some none, none, none, none, none, none⟩

/-- The updater applied after the external call resolves, one case per branch
of the try/catch in `handleProcessQueue`. -/
def outcomeUpdate (o : CallOutcome) : ItemUpdate :=
  match o with
  | CallOutcome.ok blob url cr cc ct =>
      ⟨some QueueStatus.success, some none, some url, some blob,
       some cr, some cc, some ct⟩
  | CallOutcome.httpErr isJson be bc text cr cc ct =>
      ⟨some QueueStatus.error,
       some (some (combinedErrorMessage (httpErrorMessage isJson be text) bc)),
       none, none, some cr, some cc, some ct⟩
  | CallOutcome.thrown m =>
      ⟨some QueueStatus.error,
       some (some (match m with | some s => s | none => unknownRemoveErrorMessage)),
       none, none, none, none, none⟩

/-- Externally visible actions of a batch run: a state update applied to the
item with the given id, or the single external call for that item. -/
inductive BatchEvent where
  | update (id : String) (u : ItemUpdate)
  | call (id : String)
deriving DecidableEq, Repr

/-- The `for (const item of itemsToProcess)` loop of `handleProcessQueue`:
processes the snapshot items one at a time, threading the queue state and
recording the event trace. -/
def processItems (oracle : String → CallOutcome) :
    List QueueItem → List QueueItem → List QueueItem × List BatchEvent
  | [], q => (q, [])
  | it :: rest, q =>
      let q1 := updateQueueItem q it.id processingUpdate
      let u := outcomeUpdate (oracle it.id)
      let q2 := updateQueueItem q1 it.id u
      let r := processItems oracle rest q2
      (r.1, BatchEvent.update it.id processingUpdate ::
            BatchEvent.call it.id ::
            BatchEvent.update it.id u :: r.2)

/-- Work-set membership test of part_003:
`item.status === "pending" || item.status === "error"`. -/
def isEligible (it : QueueItem) : Bool :=
  match it.status with
  | QueueStatus.pending => true
  | QueueStatus.error => true
  | _ => false

/-- Error shown when the API key is blank. -/
def missingKeyMessage : String := "请先填写 remove.bg 的 API Key。"

/-- Error shown when the queue is empty. -/
def emptyQueueMessage : String := "请先上传至少一张图片。"

/-- Error shown when no item is pending or error. -/
def noEligibleMessage : String := "队列中暂无待处理的图片。"

/-- Result of one invocation of `handleProcessQueue`: the final queue, the
global error banner, and the trace of item updates and external calls. -/
structure BatchResult where
  queue : List QueueItem
  globalError : Option String
  events : List BatchEvent
deriving DecidableEq, Repr

/-- Model of `handleProcessQueue` from part_003: the three fail-fast precondition
checks, then the sequential processing loop over the snapshot of pending and
error items. -/
def handleProcessQueue (apiKey : String) (oracle : String → CallOutcome)
    (q : List QueueItem) : BatchResult :=
  if trimWs apiKey = "" then ⟨q, some missingKeyMessage, []⟩
  else if q.isEmpty then ⟨q, some emptyQueueMessage, []⟩
  else
    let itemsToProcess := q.filter isEligible
    if itemsToProcess.isEmpty then ⟨q, some noEligibleMessage, []⟩
    else
      let r := processItems oracle itemsToProcess q
      ⟨r.1, none, r.2⟩

/-- The queue page's component state relevant to the queue claims: the ordered
queue and the active pointer. -/
structure RBState where
  queue : List QueueItem
  activeId : Option String
deriving DecidableEq, Repr

/-- Model of `handleFileChange` from part_003, restricted to its state effect: append
the freshly created items and point `activeId` at the first new item when it
was unset. -/
def handleFileChange (s : RBState) (newItems : List QueueItem) : RBState :=
  ⟨s.queue ++ newItems,
   match s.activeId, newItems with
   | none, it :: _ => some it.id
   | a, _ => a⟩

/-- Model of `handleRemoveItem` from part_003: drop every item with the given id and,
when the removed item was active, move the active pointer to the first
remaining item (or clear it). -/
def handleRemoveItem (s : RBState) (id : String) : RBState :=
  let q := s.queue.filter fun it => it.id ≠ id
  ⟨q,
   if s.activeId = some id then q.head?.map QueueItem.id else s.activeId⟩

/-- Net effect of one loop iteration on the queue entry being processed: the
`processing` update followed by the outcome update for its own call. -/
def finalizeItem (oracle : String → CallOutcome) (it : QueueItem) : QueueItem :=
  applyUpdate (applyUpdate it processingUpdate) (outcomeUpdate (oracle it.id))

/-- States of the queue page reachable from the empty page by enqueuing
batches of freshly created items (with globally fresh ids), removing items,
and running the batch operation. -/
inductive Reach : RBState → Prop
  | init : Reach ⟨[], none⟩
  | enqueue (s : RBState) (newItems : List QueueItem)
      (hfresh : ((s.queue ++ newItems).map QueueItem.id).Nodup)
      (hshape : ∀ it ∈ newItems, ∃ i u f, it = createQueueItem i u f)
      (hs : Reach s) : Reach (handleFileChange s newItems)
  | remove (s : RBState) (i : String) (hs : Reach s) :
      Reach (handleRemoveItem s i)
  | runBatch (s : RBState) (apiKey : String) (oracle : String → CallOutcome)
      (hs : Reach s) :
      Reach ⟨(handleProcessQueue apiKey oracle s.queue).queue, s.activeId⟩

/-! ## Basic lemmas about the queue operations -/

lemma applyUpdate_id (it : QueueItem) (u : ItemUpdate) :
    (applyUpdate it u).id = it.id := rfl

lemma finalizeItem_id (oracle : String → CallOutcome) (it : QueueItem) :
    (finalizeItem oracle it).id = it.id := rfl

lemma updateQueueItem_map_id (q : List QueueItem) (i : String) (u : ItemUpdate) :
    (updateQueueItem q i u).map QueueItem.id = q.map QueueItem.id := by
  unfold updateQueueItem
  rw [List.map_map]
  apply List.map_congr_left
  intro a _
  by_cases h : a.id = i <;> simp [Function.comp, h, applyUpdate_id]

/-- With unique ids, two queue members sharing an id are the same entry. -/
lemma eq_of_mem_of_nodup_map_id {q : List QueueItem}
    (h : (q.map QueueItem.id).Nodup) {a b : QueueItem}
    (ha : a ∈ q) (hb : b ∈ q) (hid : a.id = b.id) : a = b := by
  induction q with
  | nil => cases ha
  | cons x xs ih =>
    rw [List.map_cons, List.nodup_cons] at h
    rcases List.mem_cons.mp ha with ha1 | ha2 <;>
      rcases List.mem_cons.mp hb with hb1 | hb2
    · exact ha1.trans hb1.symm
    · exact absurd (ha1 ▸ hid ▸ List.mem_map_of_mem QueueItem.id hb2) h.1
    · exact absurd (hb1 ▸ hid ▸ List.mem_map_of_mem QueueItem.id ha2) h.1
    · exact ih h.2 ha2 hb2

lemma updateQueueItem_twice (q : List QueueItem) (i : String)
    (u1 u2 : ItemUpdate) :
    updateQueueItem (updateQueueItem q i u1) i u2 =
      q.map fun e => if e.id = i then applyUpdate (applyUpdate e u1) u2 else e := by
  unfold updateQueueItem
  rw [List.map_map]
  apply List.map_congr_left
  intro a _
  by_cases h : a.id = i <;> simp [Function.comp, h, applyUpdate_id]

lemma processItems_events (oracle : String → CallOutcome)
    (items q : List QueueItem) :
    (processItems oracle items q).2 = items.flatMap fun it =>
      [BatchEvent.update it.id processingUpdate, BatchEvent.call it.id,
       BatchEvent.update it.id (outcomeUpdate (oracle it.id))] := by
  induction items generalizing q with
  | nil => simp [processItems]
  | cons it rest ih => simp [processItems, ih, List.flatMap_cons]

/-- Pointwise characterisation of the processing loop: with distinct snapshot
ids, each queue entry matched by the snapshot receives exactly its own
processing and outcome updates and every other entry is untouched. -/
lemma processItems_queue (oracle : String → CallOutcome)
    (items : List QueueItem) (q : List QueueItem)
    (h : (items.map QueueItem.id).Nodup) :
    (processItems oracle items q).1 =
      q.map fun e =>
        if items.any (fun it => it.id == e.id) then finalizeItem oracle e else e := by
  induction items generalizing q with
  | nil => simp [processItems]
  | cons it rest ih =>
    rw [List.map_cons, List.nodup_cons] at h
    have hrest : ∀ x ∈ rest, x.id ≠ it.id := by
      intro x hx he
      exact h.1 (he ▸ List.mem_map_of_mem QueueItem.id hx)
    show (processItems oracle rest _).1 = _
    rw [ih _ h.2, updateQueueItem_twice, List.map_map]
    apply List.map_congr_left
    intro a _
    simp only [Function.comp_apply]
    by_cases ha : a.id = it.id
    · have h1 : (rest.any fun x => x.id ==
          (applyUpdate (applyUpdate a processingUpdate)
            (outcomeUpdate (oracle it.id))).id) = false := by
        rw [applyUpdate_id, applyUpdate_id, List.any_eq_false]
        intro x hx
        simp [ha, hrest x hx]
      have h2 : ((it :: rest).any fun x => x.id == a.id) = true := by
        simp [List.any_cons, ha]
      rw [if_pos ha, h1, h2]
      simp only [Bool.false_eq_true, if_false, if_true]
      unfold finalizeItem
      rw [ha]
    · have hid : (it.id == a.id) = false := by
        simp only [beq_eq_false_iff_ne, ne_eq]
        exact fun he => ha he.symm
      rw [if_neg ha, List.any_cons, hid, Bool.false_or]

lemma isEligible_iff (it : QueueItem) :
    isEligible it = true ↔
      (it.status = QueueStatus.pending ∨ it.status = QueueStatus.error) := by
  cases h : it.status <;> simp [isEligible, h]

/-- Full characterisation of a batch run whose preconditions hold. -/
lemma processQueue_char (apiKey : String) (oracle : String → CallOutcome)
    (q : List QueueItem)
    (hnodup : (q.map QueueItem.id).Nodup)
    (hkey : trimWs apiKey ≠ "")
    (hws : q.filter isEligible ≠ []) :
    handleProcessQueue apiKey oracle q =
      ⟨q.map (fun e => if isEligible e then finalizeItem oracle e else e),
       none,
       (q.filter isEligible).flatMap fun it =>
         [BatchEvent.update it.id processingUpdate, BatchEvent.call it.id,
          BatchEvent.update it.id (outcomeUpdate (oracle it.id))]⟩ := by
  have hq : q ≠ [] := by
    intro hq
    subst hq
    simp at hws
  have hwsNodup : ((q.filter isEligible).map QueueItem.id).Nodup :=
    ((q.filter_sublist).map QueueItem.id).nodup hnodup
  have hqe : q.isEmpty = false := List.isEmpty_eq_false.mpr hq
  have hwse : (q.filter isEligible).isEmpty = false := List.isEmpty_eq_false.mpr hws
  unfold handleProcessQueue
  rw [if_neg hkey]
  rw [hqe]
  simp only [Bool.false_eq_true, if_false]
  rw [hwse]
  simp only [Bool.false_eq_true, if_false]
  rw [processItems_events, processItems_queue _ _ _ hwsNodup]
  have : (q.map fun e =>
      if (q.filter isEligible).any (fun it => it.id == e.id) then
        finalizeItem oracle e else e) =
      q.map fun e => if isEligible e then finalizeItem oracle e else e := by
    apply List.map_congr_left
    intro a ha
    by_cases he : isEligible a
    · have : (q.filter isEligible).any (fun it => it.id == a.id) = true := by
        rw [List.any_eq_true]
        exact ⟨a, List.mem_filter.mpr ⟨ha, he⟩, by simp⟩
      simp [this, he]
    · have : (q.filter isEligible).any (fun it => it.id == a.id) = false := by
        rw [List.any_eq_false]
        intro x hx
        have hx' := List.mem_filter.mp hx
        simp only [beq_iff_eq]
        intro hxa
        exact he (eq_of_mem_of_nodup_map_id hnodup hx'.1 ha hxa ▸ hx'.2)
      simp [this, he]
  rw [this]

/-! ## The per-item field invariant -/

/-- Field invariant of one queue item: a pending item carries no result, a
successful item carries a result and no error message, a failed item carries
an error message and no result. -/
def itemInv (it : QueueItem) : Prop :=
  (it.status = QueueStatus.pending → it.resultBlob = none ∧ it.resultUrl = none) ∧
  (it.status = QueueStatus.success →
    it.resultBlob.isSome ∧ it.resultUrl.isSome ∧ it.error = none) ∧
  (it.status = QueueStatus.error →
    it.error.isSome ∧ it.resultBlob = none ∧ it.resultUrl = none)

lemma finalizeItem_inv (oracle : String → CallOutcome) (it : QueueItem)
    (hb : it.resultBlob = none) (hu : it.resultUrl = none) :
    itemInv (finalizeItem oracle it) := by
  unfold finalizeItem
  cases oracle it.id with
  | ok blob url cr cc ct =>
      simp [applyUpdate, processingUpdate, outcomeUpdate, itemInv]
  | httpErr isJson be bc text cr cc ct =>
      simp [applyUpdate, processingUpdate, outcomeUpdate, itemInv, hb, hu]
  | thrown m =>
      simp [applyUpdate, processingUpdate, outcomeUpdate, itemInv, hb, hu]

/-- Every state reachable by enqueue/remove/runBatch has pairwise-distinct ids
and satisfies the per-item field invariant. -/
lemma reach_inv (s : RBState) (h : Reach s) :
    (s.queue.map QueueItem.id).Nodup ∧ ∀ it ∈ s.queue, itemInv it := by
  induction h with
  | init => simp
  | enqueue s newItems hfresh hshape hs ih =>
      refine ⟨by simpa [handleFileChange] using hfresh, ?_⟩
      intro it hit
      rcases List.mem_append.mp (by simpa [handleFileChange] using hit) with h1 | h2
      · exact ih.2 it h1
      · obtain ⟨i, u, f, rfl⟩ := hshape it h2
        simp [createQueueItem, itemInv]
  | remove s i hs ih =>
      refine ⟨((List.filter_sublist s.queue).map QueueItem.id).nodup ih.1, ?_⟩
      intro it hit
      have hmem : it ∈ s.queue ∧ ¬it.id = i := by
        simpa [handleRemoveItem] using hit
      exact ih.2 it hmem.1
  | runBatch s apiKey oracle hs ih =>
      by_cases h1 : trimWs apiKey = ""
      · simpa [handleProcessQueue, h1] using ih
      · by_cases h2 : s.queue = []
        · have : s.queue.isEmpty = true := by simp [h2]
          simpa [handleProcessQueue, h1, this] using ih
        · by_cases h3 : s.queue.filter isEligible = []
          · have h2e : s.queue.isEmpty = false := List.isEmpty_eq_false.mpr h2
            have h3e : (s.queue.filter isEligible).isEmpty = true := by simp [h3]
            simpa [handleProcessQueue, h1, h2e, h3e] using ih
          · rw [processQueue_char apiKey oracle s.queue ih.1 h1 h3]
            constructor
            · have : (List.map QueueItem.id
                  (s.queue.map fun e =>
                    if isEligible e then finalizeItem oracle e else e)) =
                  s.queue.map QueueItem.id := by
                rw [List.map_map]
                apply List.map_congr_left
                intro a _
                by_cases ha : isEligible a <;>
                  simp [Function.comp, ha, finalizeItem_id]
              exact this ▸ ih.1
            · intro it hit
              obtain ⟨e, he, rfl⟩ := List.mem_map.mp hit
              by_cases helig : isEligible e
              · rcases (isEligible_iff e).mp helig with hp | herr
                · have hinv := (ih.2 e he).1 hp
                  simpa [helig] using finalizeItem_inv oracle e hinv.1 hinv.2
                · have hinv := (ih.2 e he).2.2 herr
                  simpa [helig] using finalizeItem_inv oracle e hinv.2.1 hinv.2.2
              · simpa [helig] using ih.2 e he

/-! ## Claim theorems: the batch queue -/

/-- Claim C1: whenever the API key is blank, the queue is empty, or no item is
pending or error, `handleProcessQueue` fails fast with the corresponding
specific error message, performs zero external calls, zero item updates, and
leaves the queue unchanged. -/
theorem runBatch_fails_fast (apiKey : String) (oracle : String → CallOutcome)
    (q : List QueueItem) :
    (trimWs apiKey = "" →
      handleProcessQueue apiKey oracle q = ⟨q, some missingKeyMessage, []⟩) ∧
    (trimWs apiKey ≠ "" → q = [] →
      handleProcessQueue apiKey oracle q = ⟨q, some emptyQueueMessage, []⟩) ∧
    (trimWs apiKey ≠ "" → q ≠ [] → q.filter isEligible = [] →
      handleProcessQueue apiKey oracle q = ⟨q, some noEligibleMessage, []⟩) := by
  refine ⟨?_, ?_, ?_⟩
  · intro h1
    simp [handleProcessQueue, h1]
  · intro h1 h2
    have h2e : q.isEmpty = true := by simp [h2]
    simp [handleProcessQueue, h1, h2e]
  · intro h1 h2 h3
    have h2e : q.isEmpty = false := List.isEmpty_eq_false.mpr h2
    have h3e : (q.filter isEligible).isEmpty = true := by simp [h3]
    simp [handleProcessQueue, h1, h2e, h3e]

/-- A pending demo item. -/
def demoPendingItem : QueueItem := createQueueItem "a" "blob:a" 1

/-- A successful demo item. -/
def demoSuccessItem : QueueItem :=
  ⟨"s", 2, "blob:s", some "blob:res-s", some 9, QueueStatus.success,
   none, none, none, none⟩

/-- A failed demo item. -/
def demoErrorItem : QueueItem :=
  ⟨"e", 3, "blob:e", none, none, QueueStatus.error, some "boom",
   none, none, none⟩

/-- An oracle whose calls always succeed. -/
def demoOracle : String → CallOutcome :=
  fun _ => CallOutcome.ok 7 "blob:r" none none none

theorem runBatch_fails_fast_witness :
    handleProcessQueue "" demoOracle [demoPendingItem] =
      ⟨[demoPendingItem], some missingKeyMessage, []⟩ ∧
    handleProcessQueue "key" demoOracle [] =
      ⟨[], some emptyQueueMessage, []⟩ ∧
    handleProcessQueue "key" demoOracle [demoSuccessItem] =
      ⟨[demoSuccessItem], some noEligibleMessage, []⟩ :=
  ⟨(runBatch_fails_fast "" demoOracle [demoPendingItem]).1 (by decide),
   (runBatch_fails_fast "key" demoOracle []).2.1 (by decide) rfl,
   (runBatch_fails_fast "key" demoOracle [demoSuccessItem]).2.2 (by decide)
     (by decide) (by decide)⟩

lemma call_notin_flatMap (oracle : String → CallOutcome)
    (ws : List QueueItem) (i : String) (h : ∀ w ∈ ws, w.id ≠ i) :
    BatchEvent.call i ∉ ws.flatMap (fun it =>
      [BatchEvent.update it.id processingUpdate, BatchEvent.call it.id,
       BatchEvent.update it.id (outcomeUpdate (oracle it.id))]) := by
  intro hmem
  obtain ⟨w, hw, hin⟩ := List.mem_flatMap.mp hmem
  have := h w hw
  simp [this.symm] at hin

lemma call_count_flatMap_one (oracle : String → CallOutcome)
    (ws : List QueueItem) (hnodup : (ws.map QueueItem.id).Nodup)
    (it : QueueItem) (hit : it ∈ ws) :
    (ws.flatMap (fun w =>
      [BatchEvent.update w.id processingUpdate, BatchEvent.call w.id,
       BatchEvent.update w.id (outcomeUpdate (oracle w.id))])).count
        (BatchEvent.call it.id) = 1 := by
  induction ws with
  | nil => cases hit
  | cons w rest ih =>
    rw [List.map_cons, List.nodup_cons] at hnodup
    rw [List.flatMap_cons, List.count_append]
    rcases List.mem_cons.mp hit with h1 | h2
    · subst h1
      have hz : (rest.flatMap (fun w =>
          [BatchEvent.update w.id processingUpdate, BatchEvent.call w.id,
           BatchEvent.update w.id (outcomeUpdate (oracle w.id))])).count
            (BatchEvent.call it.id) = 0 := by
        rw [List.count_eq_zero]
        apply call_notin_flatMap
        intro x hx he
        exact hnodup.1 (he ▸ List.mem_map_of_mem QueueItem.id hx)
      rw [hz]
      simp [List.count_cons]
    · have hne : w.id ≠ it.id := by
        intro he
        exact hnodup.1 (he ▸ List.mem_map_of_mem QueueItem.id h2)
      rw [ih hnodup.2 h2]
      simp [List.count_cons, hne]

/-- Claim C2: a batch run's work set is exactly the queue items that are
pending or error at invocation time, taken in queue order; each work-set item
is handled by a `processing` update, then exactly one external call, then its
own outcome update, strictly one item at a time; and no successful item is
ever called. -/
theorem runBatch_work_set_trace (apiKey : String) (oracle : String → CallOutcome)
    (q : List QueueItem)
    (hkey : trimWs apiKey ≠ "")
    (hnodup : (q.map QueueItem.id).Nodup) :
    (handleProcessQueue apiKey oracle q).events =
      (q.filter isEligible).flatMap (fun it =>
        [BatchEvent.update it.id processingUpdate, BatchEvent.call it.id,
         BatchEvent.update it.id (outcomeUpdate (oracle it.id))]) ∧
    (∀ it ∈ q.filter isEligible,
      ((handleProcessQueue apiKey oracle q).events).count
        (BatchEvent.call it.id) = 1) ∧
    (∀ it ∈ q, it.status = QueueStatus.success →
      BatchEvent.call it.id ∉ (handleProcessQueue apiKey oracle q).events) := by
  have hwsNodup : ((q.filter isEligible).map QueueItem.id).Nodup :=
    ((q.filter_sublist).map QueueItem.id).nodup hnodup
  have hevents : (handleProcessQueue apiKey oracle q).events =
      (q.filter isEligible).flatMap (fun it =>
        [BatchEvent.update it.id processingUpdate, BatchEvent.call it.id,
         BatchEvent.update it.id (outcomeUpdate (oracle it.id))]) := by
    by_cases h2 : q = []
    · subst h2
      simp [handleProcessQueue, hkey]
    · by_cases h3 : q.filter isEligible = []
      · have h2e : q.isEmpty = false := List.isEmpty_eq_false.mpr h2
        have h3e : (q.filter isEligible).isEmpty = true := by simp [h3]
        simp [handleProcessQueue, hkey, h2e, h3e, h3]
      · rw [processQueue_char apiKey oracle q hnodup hkey h3]
  refine ⟨hevents, ?_, ?_⟩
  · intro it hit
    rw [hevents]
    exact call_count_flatMap_one oracle _ hwsNodup it hit
  · intro it hit hsucc
    rw [hevents]
    apply call_notin_flatMap
    intro w hw he
    have hw' := List.mem_filter.mp hw
    have : w = it := eq_of_mem_of_nodup_map_id hnodup hw'.1 hit he
    rw [this] at hw'
    simp [isEligible, hsucc] at hw'

/-- A queue mixing one pending, one successful and one failed item. -/
def demoMixedQueue : List QueueItem :=
  [demoPendingItem, demoSuccessItem, demoErrorItem]

theorem runBatch_work_set_trace_witness :
    ((handleProcessQueue "key" demoOracle demoMixedQueue).events.count
      (BatchEvent.call "a") = 1) ∧
    BatchEvent.call "s" ∉ (handleProcessQueue "key" demoOracle demoMixedQueue).events := by
  have h := runBatch_work_set_trace "key" demoOracle demoMixedQueue
    (by decide) (by decide)
  refine ⟨?_, ?_⟩
  · exact h.2.1 demoPendingItem (by decide)
  · exact h.2.2 demoSuccessItem (by decide) (by decide)

/-- Claim C3: when the preconditions hold, the batch run reports no aggregate
error, and the final queue is the pointwise image of the original one —
every work-set item ends in the state determined by its own call outcome
alone, and every other item is untouched. -/
theorem runBatch_failure_isolation (apiKey : String)
    (oracle : String → CallOutcome) (q : List QueueItem)
    (hnodup : (q.map QueueItem.id).Nodup)
    (hkey : trimWs apiKey ≠ "")
    (hws : q.filter isEligible ≠ []) :
    (handleProcessQueue apiKey oracle q).globalError = none ∧
    (handleProcessQueue apiKey oracle q).queue =
      q.map fun e => if isEligible e then finalizeItem oracle e else e := by
  rw [processQueue_char apiKey oracle q hnodup hkey hws]
  exact ⟨rfl, rfl⟩

/-- Three pending demo items. -/
def demoThreePending : List QueueItem :=
  [createQueueItem "p1" "blob:p1" 1, createQueueItem "p2" "blob:p2" 2,
   createQueueItem "p3" "blob:p3" 3]

/-- An oracle that fails exactly the second item. -/
def demoFailSecondOracle : String → CallOutcome := fun i =>
  if i = "p2" then
    CallOutcome.httpErr true (some "rate limited") (some "429") "" none none none
  else CallOutcome.ok 7 "blob:r" none none none

theorem runBatch_failure_isolation_witness :
    ((handleProcessQueue "key" demoFailSecondOracle demoThreePending).globalError
        = none) ∧
    ((handleProcessQueue "key" demoFailSecondOracle demoThreePending).queue =
      demoThreePending.map fun e =>
        if isEligible e then finalizeItem demoFailSecondOracle e else e) ∧
    ((handleProcessQueue "key" demoFailSecondOracle demoThreePending).queue.map
        QueueItem.status =
      [QueueStatus.success, QueueStatus.error, QueueStatus.success]) := by
  have h := runBatch_failure_isolation "key" demoFailSecondOracle
    demoThreePending (by decide) (by decide) (by decide)
  exact ⟨h.1, h.2, by decide⟩

/-- Claim C4: in every state reachable by enqueue, remove and runBatch, an
item whose status has left pending/processing carries exactly one of a result
or an error message: success items have a result blob and url and no error,
error items have an error message and no result. -/
theorem reachable_result_error_exclusive (s : RBState) (h : Reach s) :
    ∀ it ∈ s.queue,
      (it.status = QueueStatus.success →
        it.resultBlob.isSome ∧ it.resultUrl.isSome ∧ it.error = none) ∧
      (it.status = QueueStatus.error →
        it.error.isSome ∧ it.resultBlob = none ∧ it.resultUrl = none) := by
  intro it hit
  exact ⟨((reach_inv s h).2 it hit).2.1, ((reach_inv s h).2 it hit).2.2⟩

/-- The queue page state after enqueuing one item on the empty page. -/
def demoEnqueuedState : RBState :=
  handleFileChange ⟨[], none⟩ [createQueueItem "a" "blob:a" 1]

/-- The state after then running the batch with an always-succeeding
provider. -/
def demoRunState : RBState :=
  ⟨(handleProcessQueue "key" demoOracle demoEnqueuedState.queue).queue,
   demoEnqueuedState.activeId⟩

/-- The single queue item of `demoRunState`. -/
def demoRunItem : QueueItem :=
  finalizeItem demoOracle (createQueueItem "a" "blob:a" 1)

theorem reachable_result_error_exclusive_witness :
    demoRunItem.resultBlob.isSome ∧ demoRunItem.resultUrl.isSome ∧
      demoRunItem.error = none := by
  have h := reachable_result_error_exclusive demoRunState
    (Reach.runBatch demoEnqueuedState "key" demoOracle
      (Reach.enqueue ⟨[], none⟩ [createQueueItem "a" "blob:a" 1] (by decide)
        (fun it hit => ⟨"a", "blob:a", 1, List.mem_singleton.mp hit⟩)
        Reach.init))
  exact (h demoRunItem (by decide)).1 (by decide)

/-- Claim C5: removing a present id (under the id-uniqueness invariant)
removes exactly one item, preserves the relative order of the rest, and
reassigns the active pointer to the new first item (or clears it) exactly
when the removed item was active. -/
theorem handleRemoveItem_removes_one (s : RBState) (i : String)
    (hnodup : (s.queue.map QueueItem.id).Nodup)
    (hmem : i ∈ s.queue.map QueueItem.id) :
    (∃ l1 x l2, s.queue = l1 ++ x :: l2 ∧ x.id = i ∧
        (handleRemoveItem s i).queue = l1 ++ l2) ∧
    (handleRemoveItem s i).queue.length + 1 = s.queue.length ∧
    (s.activeId = some i →
      (handleRemoveItem s i).activeId =
        (handleRemoveItem s i).queue.head?.map QueueItem.id) ∧
    (s.activeId ≠ some i →
      (handleRemoveItem s i).activeId = s.activeId) := by
  obtain ⟨x, hx, hxi⟩ := List.mem_map.mp hmem
  obtain ⟨l1, l2, hq⟩ := List.append_of_mem hx
  have hids : (l1.map QueueItem.id).Disjoint (x.id :: l2.map QueueItem.id) ∧
      x.id ∉ l2.map QueueItem.id := by
    rw [hq, List.map_append, List.map_cons, List.nodup_append] at hnodup
    exact ⟨hnodup.2.2, (List.nodup_cons.mp hnodup.2.1).1⟩
  have hl1 : ∀ a ∈ l1, a.id ≠ i := by
    intro a ha he
    exact hids.1 (List.mem_map_of_mem QueueItem.id ha)
      (by rw [he, ← hxi]; exact List.mem_cons_self _ _)
  have hl2 : ∀ a ∈ l2, a.id ≠ i := by
    intro a ha he
    exact hids.2 (by rw [hxi, ← he]; exact List.mem_map_of_mem QueueItem.id ha)
  have hfq : (handleRemoveItem s i).queue = l1 ++ l2 := by
    show s.queue.filter (fun it => it.id ≠ i) = l1 ++ l2
    rw [hq, List.filter_append, List.filter_cons]
    have hxd : (decide (x.id ≠ i)) = false := by simp [hxi]
    rw [hxd]
    simp only [Bool.false_eq_true, if_false]
    rw [List.filter_eq_self.mpr fun a ha => by simpa using hl1 a ha,
        List.filter_eq_self.mpr fun a ha => by simpa using hl2 a ha]
  refine ⟨⟨l1, x, l2, hq, hxi, hfq⟩, ?_, ?_, ?_⟩
  · rw [hfq, hq]
    simp [List.length_append]
    omega
  · intro ha
    show (if s.activeId = some i then _ else s.activeId) = _
    rw [if_pos ha]
    rfl
  · intro ha
    show (if s.activeId = some i then _ else s.activeId) = s.activeId
    rw [if_neg ha]

/-- A two-item queue whose first item is active. -/
def demoRemoveState : RBState :=
  ⟨[createQueueItem "a" "blob:a" 1, createQueueItem "b" "blob:b" 2], some "a"⟩

theorem handleRemoveItem_removes_one_witness :
    (handleRemoveItem demoRemoveState "a").queue =
      [createQueueItem "b" "blob:b" 2] ∧
    (handleRemoveItem demoRemoveState "a").activeId = some "b" := by
  have h := handleRemoveItem_removes_one demoRemoveState "a"
    (by decide) (by decide)
  refine ⟨by decide, ?_⟩
  rw [h.2.2.1 rfl]
  decide

/-- Claim C10: an update addressed to an id that is no longer in the queue is
a no-op — a late completion for a removed item cannot alter or resurrect any
item. -/
theorem updateQueueItem_absent_noop (q : List QueueItem) (i : String)
    (u : ItemUpdate) (h : i ∉ q.map QueueItem.id) :
    updateQueueItem q i u = q := by
  unfold updateQueueItem
  have : ∀ a ∈ q, (if a.id = i then applyUpdate a u else a) = a := by
    intro a ha
    have : a.id ≠ i := fun he => h (he ▸ List.mem_map_of_mem QueueItem.id ha)
    rw [if_neg this]
  rw [List.map_congr_left this, List.map_id']

theorem updateQueueItem_absent_noop_witness :
    updateQueueItem [demoPendingItem, demoSuccessItem] "gone"
        (outcomeUpdate (CallOutcome.ok 7 "blob:r" none none none)) =
      [demoPendingItem, demoSuccessItem] :=
  updateQueueItem_absent_noop [demoPendingItem, demoSuccessItem] "gone"
    (outcomeUpdate (CallOutcome.ok 7 "blob:r" none none none)) (by decide)

/-! ## Compression pipeline (src/app/compress/page.tsx) -/

/-- One RGBA pixel with straight-alpha channels as rationals in `[0, 1]`. -/
structure Pixel where
  r : ℚ
  g : ℚ
  b : ℚ
  a : ℚ
deriving DecidableEq, Repr

/-- A decoded raster image together with its natural pixel dimensions. -/
structure Bitmap where
  naturalWidth : Nat
  naturalHeight : Nat
  px : Nat → Nat → Pixel

/-- An uploaded file: name, mime type, and its decoded bitmap. -/
structure SourceFile where
  name : String
  type : String
  bitmap : Bitmap

/-- A canvas raster surface. -/
structure Surface where
  width : Nat
  height : Nat
  px : Nat → Nat → Pixel

/-- Fresh canvas pixels are transparent black. -/
def transparentPixel : Pixel := ⟨0, 0, 0, 0⟩

/-- The `#ffffff` fill colour. -/
def whitePixel : Pixel := ⟨1, 1, 1, 1⟩

/-- Canvas source-over compositing of a source pixel onto a destination
pixel (straight alpha). -/
def overComposite (s d : Pixel) : Pixel :=
  let a := s.a + d.a * (1 - s.a)
  if a = 0 then ⟨0, 0, 0, 0⟩
  else
    ⟨(s.r * s.a + d.r * d.a * (1 - s.a)) / a,
     (s.g * s.a + d.g * d.a * (1 - s.a)) / a,
     (s.b * s.a + d.b * d.a * (1 - s.a)) / a, a⟩

/-- Model of `document.createElement("canvas")` with the given dimensions. -/
def newCanvas (w h : Nat) : Surface := ⟨w, h, fun _ _ => transparentPixel⟩

/-- Model of `context.fillStyle = "#ffffff"; context.fillRect(0, 0, w, h)`. -/
def fillRectWhite (c : Surface) : Surface :=
  ⟨c.width, c.height,
   fun x y => if x < c.width ∧ y < c.height then whitePixel else c.px x y⟩

/-- Model of `context.drawImage(image, 0, 0)`: composite the bitmap source-over onto
the surface. -/
def drawImage (c : Surface) (bm : Bitmap) : Surface :=
  ⟨c.width, c.height,
   fun x y =>
     if x < bm.naturalWidth ∧ y < bm.naturalHeight then
       overComposite (bm.px x y) (c.px x y)
     else c.px x y⟩

/-- The test `["image/png", "image/webp"].includes(file.type)` from compress/page.tsx. -/
def supportsAlpha (f : SourceFile) : Bool :=
  f.type = "image/png" || f.type = "image/webp"

/-- The encoded output of `compressImage`: target mime type, the encoded
surface, and the encoder quality passed to `canvas.toBlob`. -/
structure CompressionResult where
  mimeType : String
  surface : Surface
  quality : ℚ

/-- Model of `compressImage` from compress/page.tsx: size the canvas to the decoded
bitmap's natural dimensions, pick WebP for PNG/WebP sources and JPEG
otherwise, fill the canvas with opaque white first in the JPEG case, draw the
bitmap, and encode at the given quality. -/
def compressImage (f : SourceFile) (quality : ℚ) : CompressionResult :=
  let canvas0 := newCanvas f.bitmap.naturalWidth f.bitmap.naturalHeight
  let targetType := if supportsAlpha f then "image/webp" else "image/jpeg"
  let canvas1 := if targetType = "image/jpeg" then fillRectWhite canvas0 else canvas0
  let canvas2 := drawImage canvas1 f.bitmap
  ⟨targetType, canvas2, quality⟩

/-- Claim C6: the output is WebP exactly for PNG/WebP sources; any other
source is encoded as JPEG over an opaque white fill, so every in-bounds
output pixel of the JPEG case is fully opaque. -/
theorem compress_format_policy (f : SourceFile) (quality : ℚ) :
    ((compressImage f quality).mimeType = "image/webp" ↔
      (f.type = "image/png" ∨ f.type = "image/webp")) ∧
    (f.type ≠ "image/png" → f.type ≠ "image/webp" →
      (compressImage f quality).mimeType = "image/jpeg" ∧
      ∀ x y, x < (compressImage f quality).surface.width →
        y < (compressImage f quality).surface.height →
        ((compressImage f quality).surface.px x y).a = 1) := by
  constructor
  · by_cases h : supportsAlpha f
    · have := h
      rw [supportsAlpha, Bool.or_eq_true, decide_eq_true_iff, decide_eq_true_iff]
        at this
      simp [compressImage, h, this]
    · have := h
      rw [supportsAlpha, Bool.or_eq_true, decide_eq_true_iff, decide_eq_true_iff]
        at this
      push_neg at this
      simp only [compressImage, h, Bool.false_eq_true, if_false]
      constructor
      · intro hw
        exact absurd hw (by decide)
      · intro hw
        exact absurd hw (by simpa using this)
  · intro h1 h2
    have hsa : supportsAlpha f = false := by
      rw [supportsAlpha, Bool.or_eq_false_iff]
      exact ⟨by simpa using h1, by simpa using h2⟩
    refine ⟨by simp [compressImage, hsa], ?_⟩
    intro x y hx hy
    have hw : (compressImage f quality).surface.width = f.bitmap.naturalWidth := by
      simp [compressImage, hsa, drawImage, fillRectWhite, newCanvas]
    have hh : (compressImage f quality).surface.height = f.bitmap.naturalHeight := by
      simp [compressImage, hsa, drawImage, fillRectWhite, newCanvas]
    rw [hw] at hx
    rw [hh] at hy
    have hpx : (compressImage f quality).surface.px x y =
        overComposite (f.bitmap.px x y) whitePixel := by
      simp [compressImage, hsa, drawImage, fillRectWhite, newCanvas, hx, hy]
    rw [hpx]
    have ha : (f.bitmap.px x y).a + (1 : ℚ) * (1 - (f.bitmap.px x y).a) = 1 := by
      ring
    simp [overComposite, whitePixel, ha]

/-- A 1×1 fully transparent GIF source. -/
def demoGif : SourceFile :=
  ⟨"pic.gif", "image/gif", ⟨1, 1, fun _ _ => ⟨0, 0, 0, 0⟩⟩⟩

theorem compress_format_policy_witness :
    (compressImage demoGif 1).mimeType = "image/jpeg" ∧
    ((compressImage demoGif 1).surface.px 0 0).a = 1 := by
  have h := (compress_format_policy demoGif 1).2 (by decide) (by decide)
  exact ⟨h.1, h.2 0 0 (by decide) (by decide)⟩

/-- Claim C7: the output surface has exactly the source bitmap's natural
pixel dimensions, for every quality value — the pipeline never resizes. -/
theorem compress_preserves_dimensions (f : SourceFile) (quality : ℚ) :
    (compressImage f quality).surface.width = f.bitmap.naturalWidth ∧
    (compressImage f quality).surface.height = f.bitmap.naturalHeight := by
  unfold compressImage drawImage fillRectWhite newCanvas
  by_cases h : supportsAlpha f <;> simp [h]

/-! ## Image-generation proxy (src/unnamed/part_001) -/

/-- JavaScript truthiness for an optional string: `undefined`/`null` and the
empty string are falsy. -/
def truthyS : Option String → Bool
  | some s => !(s = "")
  | none => false

/-- A JSON field value as far as the route inspects it. -/
inductive JVal where
  | str (s : String)
  | bool (b : Bool)
  | other
deriving DecidableEq, Repr

/-- The parsed request body of the generation route (`none` = key absent). -/
structure GenBody where
  prompt : Option JVal
  negativePrompt : Option JVal
  apiKey : Option JVal
  size : Option JVal
  sequential : Option JVal
  watermark : Option JVal
  responseFormat : Option JVal
deriving DecidableEq, Repr

/-- The two provider response formats. -/
inductive RespFormat where
  | url
  | b64_json
deriving DecidableEq, Repr

/-- One element of the provider's `data` array. -/
structure RawImageItem where
  url : Option String
  b64_json : Option String
  mime_type : Option String
  content_type : Option String
  size : Option String
  prompt : Option String
  revised_prompt : Option String
  seed : Option Int
  index : Option Nat
  created : Option Int
deriving DecidableEq, Repr

/-- The provider reply as far as the route inspects it: `ok`/`status` of the
HTTP response, the `error.message` and `message` fields of the parsed body,
and its `data` array when it is an array. -/
structure ProviderReply where
  ok : Bool
  status : Nat
  errorMessage : Option String
  topMessage : Option String
  data : Option (List RawImageItem)
deriving DecidableEq, Repr

/-- Model of `VolcengineCallResult`: the reply paired with the format that was
requested. -/
structure CallResult where
  reply : ProviderReply
  format : RespFormat
deriving DecidableEq, Repr

/-- Model of `callVolcengine` from part_001: one provider call with
`response_format` set to the given format. -/
def callVolcengine (provider : String → RespFormat → ProviderReply)
    (apiKey : String) (fmt : RespFormat) : CallResult :=
  ⟨provider apiKey fmt, fmt⟩

/-- The `DEFAULT_MODEL` constant from part_001. -/
def DEFAULT_MODEL : String := "ep-20251023012547-2jjbx"

/-- The chain `item.content_type || item.mime_type || fallbackMime`. -/
def mimeChoice (item : RawImageItem) (fallbackMime : String) : String :=
  if truthyS item.content_type then item.content_type.getD ""
  else if truthyS item.mime_type then item.mime_type.getD ""
  else fallbackMime

/-- A normalized image record. -/
structure NormalizedImage where
  id : String
  url : String
  mimeType : String
  size : Option String
  prompt : Option String
  revisedPrompt : Option String
  seed : Option Int
  created : Option Int
deriving DecidableEq, Repr

/-- Model of `buildImageUrl` from part_001: a truthy `url` is passed through; otherwise
a truthy `b64_json` payload is wrapped in a `data:<mime>;base64,<payload>`
URI; otherwise the item is dropped. -/
def buildImageUrl (item : RawImageItem) (fallbackMime : String) :
    Option (String × String) :=
  if truthyS item.url then
    some (item.url.getD "", mimeChoice item fallbackMime)
  else if truthyS item.b64_json then
    some ("data:" ++ mimeChoice item fallbackMime ++ ";base64," ++
            item.b64_json.getD "",
          mimeChoice item fallbackMime)
  else none

/-- Model of `normalizeImages` from part_001 (non-array `data` yields `[]`). -/
def normalizeImages (data : Option (List RawImageItem)) :
    List NormalizedImage :=
  match data with
  | none => []
  | some items =>
      items.enum.filterMap fun p =>
        (buildImageUrl p.2 "image/png").map fun built =>
          ⟨"image-" ++ toString (p.2.index.getD p.1), built.1, built.2,
           p.2.size, p.2.prompt, p.2.revised_prompt, p.2.seed, p.2.created⟩

/-- The literal pattern of the retry regular expression in part_001. -/
def retryPattern : String :=
  "endpoint that is currently closed or temporarily unavailable"

/-- Case-insensitive test of the retry regular expression. -/
def matchesRetryPattern (m : String) : Bool :=
  containsStr (toLowerStr m) retryPattern

/-- The chain `result.parsedBody?.error?.message || result.parsedBody?.message`. -/
def replyMessage (p : ProviderReply) : Option String :=
  if truthyS p.errorMessage then p.errorMessage else p.topMessage

/-- Model of `shouldRetryWithBase64` from part_001. -/
def shouldRetryWithBase64 (r : CallResult) : Bool :=
  if r.reply.ok then false
  else if r.format ≠ RespFormat.url then false
  else if r.reply.status = 404 then true
  else
    match replyMessage r.reply with
    | some m => if m = "" then false else matchesRetryPattern m
    | none => false

/-- Outcome of the route: a 400 validation error, a relayed provider error, or
a success payload with the normalized images and the format ultimately
used. -/
inductive PostOutcome where
  | badRequest (error : String)
  | providerError (status : Nat) (error : String)
  | success (images : List NormalizedImage) (responseFormat : RespFormat)
deriving DecidableEq, Repr

/-- The route's reply together with the sequence of provider calls it made
(each recorded by its requested response format). -/
structure PostResponse where
  outcome : PostOutcome
  calls : List RespFormat
deriving DecidableEq, Repr

/-- The expression `typeof body.prompt === "string" ? body.prompt.trim() : ""`. -/
def promptOf (body : GenBody) : String :=
  match body.prompt with
  | some (JVal.str s) => trimWs s
  | _ => ""

/-- The initial response format: `"b64_json"` or `"url"` if given, otherwise
`"url"`. -/
def initialFormatOf (body : GenBody) : RespFormat :=
  match body.responseFormat with
  | some (JVal.str s) =>
      if s = "b64_json" then RespFormat.b64_json
      else RespFormat.url
  | _ => RespFormat.url

/-- The expression `(typeof body.apiKey === "string" && body.apiKey.trim()) ||
process.env.ARK_API_KEY`. -/
def resolvedApiKeyOf (env : Option String) (body : GenBody) : Option String :=
  match body.apiKey with
  | some (JVal.str s) => if trimWs s = "" then env else some (trimWs s)
  | _ => env

/-- Error message of the empty-prompt check. -/
def promptRequiredMessage : String := "提示词不能为空。"

/-- Error message of the missing-credential check. -/
def missingArkKeyMessage : String :=
  "服务器未配置火山引擎 API Key，请联系管理员或填写自定义密钥。"

/-- Default message of the provider-error branch. -/
def generationFailedMessage : String := "生成失败，请稍后再试。"

/-- The `errorMessage` extraction of the final non-ok branch. -/
def finalErrorMessage (p : ProviderReply) : String :=
  if truthyS p.errorMessage then p.errorMessage.getD ""
  else if truthyS p.topMessage then p.topMessage.getD ""
  else generationFailedMessage

/-- Build the route's reply from the final call result. -/
def finishResult (r : CallResult) : PostOutcome :=
  if r.reply.ok then
    PostOutcome.success (normalizeImages r.reply.data) r.format
  else PostOutcome.providerError r.reply.status (finalErrorMessage r.reply)

/-- Model of `POST` from part_001: validate the prompt and the credential, call the
provider with the requested format, retry exactly once with `b64_json` when
`shouldRetryWithBase64` fires, and normalize the final reply. -/
def POST (env : Option String) (provider : String → RespFormat → ProviderReply)
    (body : GenBody) : PostResponse :=
  if promptOf body = "" then ⟨PostOutcome.badRequest promptRequiredMessage, []⟩
  else if truthyS (resolvedApiKeyOf env body) = false then
    ⟨PostOutcome.badRequest missingArkKeyMessage, []⟩
  else
    let key := (resolvedApiKeyOf env body).getD ""
    let fmt0 := initialFormatOf body
    let r0 := callVolcengine provider key fmt0
    if shouldRetryWithBase64 r0 then
      ⟨finishResult (callVolcengine provider key RespFormat.b64_json),
       [fmt0, RespFormat.b64_json]⟩
    else ⟨finishResult r0, [fmt0]⟩

/-- Claim C8: the route calls the requested format first and retries with
`b64_json` exactly when the first attempt was a non-2xx `url`-format call
with status 404 or an endpoint-closed message; a success reply reports the
format of the last call; and an item delivered only as `b64_json` is exposed
as a `data:<mime>;base64,<payload>` URI. -/
theorem generation_url_fallback (env : Option String)
    (provider : String → RespFormat → ProviderReply) (body : GenBody)
    (hp : promptOf body ≠ "")
    (hk : truthyS (resolvedApiKeyOf env body) = true) :
    ((POST env provider body).calls =
      if shouldRetryWithBase64 (callVolcengine provider
          ((resolvedApiKeyOf env body).getD "") (initialFormatOf body)) then
        [initialFormatOf body, RespFormat.b64_json]
      else [initialFormatOf body]) ∧
    (∀ r : CallResult, shouldRetryWithBase64 r = true ↔
      (r.reply.ok = false ∧ r.format = RespFormat.url ∧
        (r.reply.status = 404 ∨
          ∃ m, replyMessage r.reply = some m ∧ m ≠ "" ∧
            matchesRetryPattern m = true))) ∧
    (∀ imgs fmt, (POST env provider body).outcome =
        PostOutcome.success imgs fmt →
      fmt = (if shouldRetryWithBase64 (callVolcengine provider
          ((resolvedApiKeyOf env body).getD "") (initialFormatOf body)) then
        RespFormat.b64_json
      else initialFormatOf body)) ∧
    (∀ item fb, truthyS item.url = false → truthyS item.b64_json = true →
      buildImageUrl item fb =
        some ("data:" ++ mimeChoice item fb ++ ";base64," ++
                item.b64_json.getD "",
              mimeChoice item fb)) := by
  have hkf : truthyS (resolvedApiKeyOf env body) = false ↔ False := by
    simp [hk]
  refine ⟨?_, ?_, ?_, ?_⟩
  · unfold POST
    rw [if_neg hp]
    rw [hk]
    simp only [Bool.true_eq_false, if_false]
    by_cases hr : shouldRetryWithBase64 (callVolcengine provider
        ((resolvedApiKeyOf env body).getD "") (initialFormatOf body))
    · rw [if_pos hr, if_pos hr]
    · rw [if_neg hr, if_neg hr]
  · intro r
    unfold shouldRetryWithBase64
    by_cases h1 : r.reply.ok
    · simp [h1]
    · by_cases h2 : r.format = RespFormat.url
      · by_cases h3 : r.reply.status = 404
        · simp [h1, h2, h3]
        · cases hm : replyMessage r.reply with
          | none => simp [h1, h2, h3, hm]
          | some m =>
              by_cases h4 : m = ""
              · simp [h1, h2, h3, hm, h4]
              · simp [h1, h2, h3, hm, h4]
      · simp [h1, h2]
  · intro imgs fmt
    unfold POST
    rw [if_neg hp]
    rw [hk]
    simp only [Bool.true_eq_false, if_false]
    by_cases hr : shouldRetryWithBase64 (callVolcengine provider
        ((resolvedApiKeyOf env body).getD "") (initialFormatOf body))
    · rw [if_pos hr, if_pos hr]
      intro hout
      unfold finishResult at hout
      by_cases hok : (callVolcengine provider
          ((resolvedApiKeyOf env body).getD "") RespFormat.b64_json).reply.ok
      · rw [if_pos hok] at hout
        cases hout
        rfl
      · rw [if_neg hok] at hout
        cases hout
    · rw [if_neg hr, if_neg hr]
      intro hout
      unfold finishResult at hout
      by_cases hok : (callVolcengine provider
          ((resolvedApiKeyOf env body).getD "") (initialFormatOf body)).reply.ok
      · rw [if_pos hok] at hout
        cases hout
        rfl
      · rw [if_neg hok] at hout
        cases hout
  · intro item fb hu hb
    unfold buildImageUrl
    rw [hu, hb]
    simp

/-- A demo generation request: non-empty prompt, a caller-supplied key,
`responseFormat` omitted. -/
def demoGenBody : GenBody :=
  ⟨some (JVal.str "a cat"), none, some (JVal.str "sk-test"), none, none,
   none, none⟩

/-- A demo provider whose `url`-format endpoint answers 404 and whose
`b64_json` endpoint succeeds with one base64 item. -/
def demoProvider : String → RespFormat → ProviderReply := fun _ fmt =>
  match fmt with
  | RespFormat.url => ⟨false, 404, none, none, none⟩
  | RespFormat.b64_json =>
      ⟨true, 200, none, none,
       some [⟨none, some "QUJD", none, some "image/png", none, none, none,
              none, none, none⟩]⟩

theorem generation_url_fallback_witness :
    (POST none demoProvider demoGenBody).calls =
      [RespFormat.url, RespFormat.b64_json] ∧
    (POST none demoProvider demoGenBody).outcome =
      PostOutcome.success
        [⟨"image-0", "data:image/png;base64,QUJD", "image/png", none, none,
          none, none, none⟩]
        RespFormat.b64_json := by
  have h := generation_url_fallback none demoProvider demoGenBody
    (by decide) (by decide)
  refine ⟨?_, ?_⟩
  · rw [h.1]
    decide
  · decide

/-! ## Recognition content extraction (src/app/identify/page.tsx)

Extraction can throw: `item.text?.trim()` throws a TypeError when a
`type:"text"` element carries a `text` value that is neither a string nor
null/undefined (optional chaining only guards nullish values), and
`"output_text" in result` throws a TypeError when the response is a truthy
JSON primitive.  The model therefore returns an explicit ok-or-TypeError
outcome. -/

/-- The runtime value of a `text` key: a string, a nullish value (`null` or
`undefined`, swallowed by the optional chain), or any other value — on which
`item.text?.trim()` throws a TypeError, truthy or not (for example `42`, `0`
or `false`). -/
inductive JsTextVal where
  | str (s : String)
  | nullish
  | nonString
deriving DecidableEq, Repr

/-- One element of an array-valued `message.content`: a plain string, an
object (whose `type` key, when present, is `ty` — a non-string `type` value
behaves like a string different from "text" and is collapsed into that case —
and whose `text` key is `text`), or anything else. -/
inductive ContentItem where
  | str (s : String)
  | typed (ty : Option String) (text : Option JsTextVal)
  | other
deriving DecidableEq, Repr

/-- The `content` of a choice's message: a string, an array of items, or any
other value (including an absent key). -/
inductive MsgContent where
  | str (s : String)
  | arr (items : List ContentItem)
  | other
deriving DecidableEq, Repr

/-- The `message` object of one choice. -/
structure ChoiceMessage where
  content : MsgContent
deriving DecidableEq, Repr

/-- One element of `result.choices`. -/
structure IdentifyChoice where
  message : Option ChoiceMessage
deriving DecidableEq, Repr

/-- An object-shaped provider response as inspected by
`extractMessageContent`: `choices` when it is an array, and the top-level
`output_text` key when present (already coerced to a string by
`String(v ?? "")`, which never throws). -/
structure IdentifyResult where
  choices : Option (List IdentifyChoice)
  output_text : Option String
deriving DecidableEq, Repr

/-- The runtime value handed to `extractMessageContent`: a falsy value
(`null`, `undefined`, `0`, `""`, `false`, `NaN` — caught by the
`if (!result) return []` guard), a truthy non-object (property access yields
`undefined`, but the `"output_text" in result` membership test throws), or an
object. -/
inductive IdentifyValue where
  | falsy
  | truthyPrim
  | obj (res : IdentifyResult)
deriving DecidableEq, Repr

/-- A normalized text block. -/
structure NormalizedContentBlock where
  id : String
  text : String
deriving DecidableEq, Repr

/-- Outcome of running the extraction: a block list, or a thrown
TypeError. -/
inductive ExtractResult where
  | ok (blocks : List NormalizedContentBlock)
  | typeError
deriving DecidableEq, Repr

/-- The template literal of block ids. -/
def blockId (choiceIdx innerIdx : Nat) : String :=
  "choice-" ++ toString choiceIdx ++ "-text-" ++ toString innerIdx

/-- The access `choice?.message?.content`, with every non-string non-array
value collapsed to `.other` (primitive choices and absent keys yield
`undefined` without throwing). -/
def contentOf (c : IdentifyChoice) : MsgContent :=
  match c.message with
  | some m => m.content
  | none => MsgContent.other

/-- The inner `content.forEach` loop for array content, carrying the running
`innerIndex`.  A `type:"text"` element whose `text` is neither a string nor
nullish throws (`item.text?.trim()`), discarding all blocks. -/
def extractItems (choiceIdx : Nat) :
    Nat → List ContentItem → ExtractResult
  | _, [] => ExtractResult.ok []
  | j, ContentItem.str s :: rest =>
      match extractItems choiceIdx (j + 1) rest with
      | ExtractResult.ok l =>
          ExtractResult.ok
            ((if trimWs s = "" then [] else [⟨blockId choiceIdx j, trimWs s⟩]) ++ l)
      | ExtractResult.typeError => ExtractResult.typeError
  | j, ContentItem.typed ty text :: rest =>
      if ty = some "text" then
        match text with
        | some (JsTextVal.str t) =>
            match extractItems choiceIdx (j + 1) rest with
            | ExtractResult.ok l =>
                ExtractResult.ok
                  ((if trimWs t = "" then []
                    else [⟨blockId choiceIdx j, trimWs t⟩]) ++ l)
            | ExtractResult.typeError => ExtractResult.typeError
        | some JsTextVal.nonString => ExtractResult.typeError
        | some JsTextVal.nullish => extractItems choiceIdx (j + 1) rest
        | none => extractItems choiceIdx (j + 1) rest
      else extractItems choiceIdx (j + 1) rest
  | j, ContentItem.other :: rest => extractItems choiceIdx (j + 1) rest

/-- The body of the outer `choices.forEach` for one choice. -/
def extractChoice (idx : Nat) (c : IdentifyChoice) : ExtractResult :=
  match contentOf c with
  | MsgContent.str s =>
      ExtractResult.ok
        (if trimWs s = "" then [] else [⟨blockId idx 0, trimWs s⟩])
  | MsgContent.arr items => extractItems idx 0 items
  | MsgContent.other => ExtractResult.ok []

/-- The outer `choices.forEach` loop, carrying the running choice index; a
throw in any choice propagates. -/
def extractChoices : Nat → List IdentifyChoice → ExtractResult
  | _, [] => ExtractResult.ok []
  | idx, c :: rest =>
      match extractChoice idx c with
      | ExtractResult.typeError => ExtractResult.typeError
      | ExtractResult.ok l =>
          match extractChoices (idx + 1) rest with
          | ExtractResult.typeError => ExtractResult.typeError
          | ExtractResult.ok l2 => ExtractResult.ok (l ++ l2)

/-- Model of `extractMessageContent` from identify/page.tsx: a falsy response
yields `[]`; otherwise collect blocks from every choice (a truthy primitive
has no `choices` array, hence no blocks), and when none were found evaluate
`"output_text" in result` — which throws on a non-object — falling back to a
present, non-empty `output_text`. -/
def extractMessageContent (v : IdentifyValue) : ExtractResult :=
  match v with
  | IdentifyValue.falsy => ExtractResult.ok []
  | IdentifyValue.truthyPrim =>
      match extractChoices 0 [] with
      | ExtractResult.typeError => ExtractResult.typeError
      | ExtractResult.ok blocks =>
          if blocks.length ≠ 0 then ExtractResult.ok blocks
          else ExtractResult.typeError
  | IdentifyValue.obj res =>
      match extractChoices 0 (res.choices.getD []) with
      | ExtractResult.typeError => ExtractResult.typeError
      | ExtractResult.ok blocks =>
          if blocks.length ≠ 0 then ExtractResult.ok blocks
          else
            ExtractResult.ok
              (match res.output_text with
               | some v2 =>
                   if trimWs v2 = "" then []
                   else [⟨"fallback-output-text", trimWs v2⟩]
               | none => [])

/-- A response whose single choice has array content holding one string
element that is whitespace only. -/
def demoWhitespaceValue : IdentifyValue :=
  IdentifyValue.obj ⟨some [⟨some ⟨MsgContent.arr [ContentItem.str " "]⟩⟩], none⟩

/-- A response whose single choice has array content holding one
`type:"text"` element whose `text` is a non-string value. -/
def demoNonStringTextValue : IdentifyValue :=
  IdentifyValue.obj
    ⟨some [⟨some ⟨MsgContent.arr
        [ContentItem.typed (some "text") (some JsTextVal.nonString)]⟩⟩],
     none⟩

/-- Counterexample to claim C9 as stated, on two counts: an array content with
exactly one string element that is whitespace-only yields zero blocks rather
than one block per string element; and extraction is not exception-free — a
`type:"text"` element whose `text` is a present non-string throws a
TypeError, as does a truthy non-object response at the `output_text`
membership test. -/
theorem extract_content_counterexample :
    (extractMessageContent demoWhitespaceValue = ExtractResult.ok [] ∧
      [ContentItem.str " "].length = 1) ∧
    extractMessageContent demoNonStringTextValue = ExtractResult.typeError ∧
    extractMessageContent IdentifyValue.truthyPrim = ExtractResult.typeError := by
  decide

/-! Specification-side extraction, following the amended claim. -/

/-- Modelled from the amended claim: what one array element contributes — a
block, nothing, or a thrown TypeError. -/
inductive SpecItemResult where
  | block (b : NormalizedContentBlock)
  | skip
  | raisesTypeError
deriving DecidableEq, Repr

/-- Modelled from the amended claim: a string element contributes a block
holding its non-empty trimmed value; a `type:"text"` element contributes a
block holding its non-empty trimmed string text, and throws when its text is
present and neither a string nor nullish; everything else is skipped. -/
def specItemOutcome (choiceIdx innerIdx : Nat) (it : ContentItem) :
    SpecItemResult :=
  match it with
  | ContentItem.str s =>
      if trimWs s = "" then SpecItemResult.skip
      else SpecItemResult.block ⟨blockId choiceIdx innerIdx, trimWs s⟩
  | ContentItem.typed ty text =>
      if ty = some "text" then
        match text with
        | some (JsTextVal.str t) =>
            if trimWs t = "" then SpecItemResult.skip
            else SpecItemResult.block ⟨blockId choiceIdx innerIdx, trimWs t⟩
        | some JsTextVal.nonString => SpecItemResult.raisesTypeError
        | some JsTextVal.nullish => SpecItemResult.skip
        | none => SpecItemResult.skip
      else SpecItemResult.skip
  | ContentItem.other => SpecItemResult.skip

/-- Collect the per-element contributions; any throw discards the blocks. -/
def collectItemResults : List SpecItemResult → ExtractResult
  | [] => ExtractResult.ok []
  | SpecItemResult.raisesTypeError :: _ => ExtractResult.typeError
  | SpecItemResult.skip :: rest => collectItemResults rest
  | SpecItemResult.block b :: rest =>
      match collectItemResults rest with
      | ExtractResult.typeError => ExtractResult.typeError
      | ExtractResult.ok l => ExtractResult.ok (b :: l)

/-- Modelled from the amended claim: the blocks one choice contributes. -/
def specChoiceBlocks (choiceIdx : Nat) (c : IdentifyChoice) : ExtractResult :=
  match contentOf c with
  | MsgContent.str s =>
      ExtractResult.ok
        (if trimWs s = "" then [] else [⟨blockId choiceIdx 0, trimWs s⟩])
  | MsgContent.arr items =>
      collectItemResults (items.enum.map fun p => specItemOutcome choiceIdx p.1 p.2)
  | MsgContent.other => ExtractResult.ok []

/-- Concatenate the per-choice contributions; any throw propagates. -/
def collectChoiceResults : List ExtractResult → ExtractResult
  | [] => ExtractResult.ok []
  | ExtractResult.typeError :: _ => ExtractResult.typeError
  | ExtractResult.ok l :: rest =>
      match collectChoiceResults rest with
      | ExtractResult.typeError => ExtractResult.typeError
      | ExtractResult.ok l2 => ExtractResult.ok (l ++ l2)

/-- Modelled from the amended claim: a falsy response yields the empty list; a
truthy non-object response throws a TypeError; an object response yields the
per-choice blocks in order, with a present, non-empty-after-trim
`output_text` as the single fallback block when no blocks resulted, and the
empty list otherwise. -/
def specExtract (v : IdentifyValue) : ExtractResult :=
  match v with
  | IdentifyValue.falsy => ExtractResult.ok []
  | IdentifyValue.truthyPrim => ExtractResult.typeError
  | IdentifyValue.obj res =>
      match collectChoiceResults
          ((res.choices.getD []).enum.map fun p => specChoiceBlocks p.1 p.2) with
      | ExtractResult.typeError => ExtractResult.typeError
      | ExtractResult.ok blocks =>
          if blocks = [] then
            ExtractResult.ok
              (match res.output_text with
               | some v2 =>
                   if trimWs v2 = "" then []
                   else [⟨"fallback-output-text", trimWs v2⟩]
               | none => [])
          else ExtractResult.ok blocks

lemma extractItems_eq_spec (ci : Nat) (items : List ContentItem) (k : Nat) :
    extractItems ci k items =
      collectItemResults
        ((List.enumFrom k items).map fun p => specItemOutcome ci p.1 p.2) := by
  induction items generalizing k with
  | nil => simp [extractItems, collectItemResults]
  | cons it rest ih =>
    rw [List.enumFrom_cons, List.map_cons]
    cases it with
    | str s =>
        by_cases h : trimWs s = ""
        · have hhead : specItemOutcome ci k (ContentItem.str s) =
              SpecItemResult.skip := by simp [specItemOutcome, h]
          rw [hhead]
          simp only [collectItemResults]
          rw [← ih]
          cases hc : extractItems ci (k + 1) rest <;>
            simp [extractItems, h, hc]
        · have hhead : specItemOutcome ci k (ContentItem.str s) =
              SpecItemResult.block ⟨blockId ci k, trimWs s⟩ := by
            simp [specItemOutcome, h]
          rw [hhead]
          simp only [collectItemResults]
          rw [← ih]
          cases hc : extractItems ci (k + 1) rest <;>
            simp [extractItems, h, hc]
    | typed ty text =>
        by_cases hty : ty = some "text"
        · cases text with
          | none =>
              have hhead : specItemOutcome ci k (ContentItem.typed ty none) =
                  SpecItemResult.skip := by simp [specItemOutcome, hty]
              rw [hhead]
              simp only [collectItemResults]
              rw [← ih]
              simp [extractItems, hty]
          | some tv =>
              cases tv with
              | str t =>
                  by_cases h : trimWs t = ""
                  · have hhead : specItemOutcome ci k
                        (ContentItem.typed ty (some (JsTextVal.str t))) =
                          SpecItemResult.skip := by
                      simp [specItemOutcome, hty, h]
                    rw [hhead]
                    simp only [collectItemResults]
                    rw [← ih]
                    cases hc : extractItems ci (k + 1) rest <;>
                      simp [extractItems, hty, h, hc]
                  · have hhead : specItemOutcome ci k
                        (ContentItem.typed ty (some (JsTextVal.str t))) =
                          SpecItemResult.block ⟨blockId ci k, trimWs t⟩ := by
                      simp [specItemOutcome, hty, h]
                    rw [hhead]
                    simp only [collectItemResults]
                    rw [← ih]
                    cases hc : extractItems ci (k + 1) rest <;>
                      simp [extractItems, hty, h, hc]
              | nullish =>
                  have hhead : specItemOutcome ci k
                      (ContentItem.typed ty (some JsTextVal.nullish)) =
                        SpecItemResult.skip := by simp [specItemOutcome, hty]
                  rw [hhead]
                  simp only [collectItemResults]
                  rw [← ih]
                  simp [extractItems, hty]
              | nonString =>
                  have hhead : specItemOutcome ci k
                      (ContentItem.typed ty (some JsTextVal.nonString)) =
                            SpecItemResult.raisesTypeError := by
                    simp [specItemOutcome, hty]
                  rw [hhead]
                  simp only [collectItemResults]
                  simp [extractItems, hty]
        · have hhead : specItemOutcome ci k (ContentItem.typed ty text) =
              SpecItemResult.skip := by simp [specItemOutcome, hty]
          rw [hhead]
          simp only [collectItemResults]
          rw [← ih]
          simp [extractItems, hty]
    | other =>
        have hhead : specItemOutcome ci k ContentItem.other =
            SpecItemResult.skip := by simp [specItemOutcome]
        rw [hhead]
        simp only [collectItemResults]
        rw [← ih]
        simp [extractItems]

lemma extractChoice_eq_spec (idx : Nat) (c : IdentifyChoice) :
    extractChoice idx c = specChoiceBlocks idx c := by
  unfold extractChoice specChoiceBlocks
  cases contentOf c with
  | str s => rfl
  | arr items =>
      show extractItems idx 0 items = _
      rw [extractItems_eq_spec]
      rfl
  | other => rfl

lemma extractChoices_eq_spec (cs : List IdentifyChoice) (k : Nat) :
    extractChoices k cs =
      collectChoiceResults
        ((List.enumFrom k cs).map fun p => specChoiceBlocks p.1 p.2) := by
  induction cs generalizing k with
  | nil => simp [extractChoices, collectChoiceResults]
  | cons c rest ih =>
      rw [List.enumFrom_cons, List.map_cons]
      cases h1 : specChoiceBlocks k c <;>
        cases h2 : extractChoices (k + 1) rest <;>
          simp [extractChoices, collectChoiceResults, extractChoice_eq_spec,
            h1, ← ih, h2]

/-- Claim C9 (amended): content extraction equals the declarative policy —
string message content gives one block with the trimmed string (none when it
trims empty); array content gives one block per string element with non-empty
trimmed value and per `type:"text"` element whose text is a string with
non-empty trim, and throws a TypeError on a `type:"text"` element whose text
is present and neither a string nor null/undefined; when no blocks result, an
object response falls back to a present, non-empty `output_text` as a single
block; a falsy response yields the empty list; a truthy non-object response
throws a TypeError at the `output_text` membership test; otherwise the result
is the empty list. -/
theorem extractMessageContent_eq_spec (v : IdentifyValue) :
    extractMessageContent v = specExtract v := by
  cases v with
  | falsy => rfl
  | truthyPrim => rfl
  | obj res =>
      have hL : extractMessageContent (IdentifyValue.obj res) =
          (match extractChoices 0 (res.choices.getD []) with
           | ExtractResult.typeError => ExtractResult.typeError
           | ExtractResult.ok blocks =>
               if blocks.length ≠ 0 then ExtractResult.ok blocks
               else
                 ExtractResult.ok
                   (match res.output_text with
                    | some v2 =>
                        if trimWs v2 = "" then []
                        else [⟨"fallback-output-text", trimWs v2⟩]
                    | none => [])) := rfl
      have hR : specExtract (IdentifyValue.obj res) =
          (match collectChoiceResults
              ((res.choices.getD []).enum.map fun p =>
                specChoiceBlocks p.1 p.2) with
           | ExtractResult.typeError => ExtractResult.typeError
           | ExtractResult.ok blocks =>
               if blocks = [] then
                 ExtractResult.ok
                   (match res.output_text with
                    | some v2 =>
                        if trimWs v2 = "" then []
                        else [⟨"fallback-output-text", trimWs v2⟩]
                    | none => [])
               else ExtractResult.ok blocks) := rfl
      rw [hL, hR, extractChoices_eq_spec]
      have henum : List.enumFrom 0 (res.choices.getD []) =
          (res.choices.getD []).enum := rfl
      rw [henum]
      cases hc : collectChoiceResults
          ((res.choices.getD []).enum.map fun p => specChoiceBlocks p.1 p.2) with
      | ok blocks =>
          by_cases h : blocks = []
          · simp [h]
          · simp [h, List.length_eq_zero]
      | typeError => rfl

end ImageProcess
